import Mathlib

/-!
Verification development for the VisionRAG retrieval pipeline
(`src/app`).  The Python modules `rag_pipeline.py`, `llm_client.py`,
`main.py`, `scene_detection.py` and `audio.py` are shallowly embedded:
pure fragments become Lean functions, the ChromaDB collection becomes an
explicit list of entries threaded through the operations, Python
exceptions become `Option`/`Except` results, and floats become `ℚ`.
-/

/-! ## Configuration constants (`config.py`) -/

def MIN_TOP_K : Nat := 3

def MAX_TOP_K : Nat := 20

def DEFAULT_TOP_K : Nat := 10

def OLLAMA_BASE_URL : String := "http://127.0.0.1:11434"

/-! ## Data model

`Metadata` is the per-entry metadata dict built in `index_video_frames`
(`rag_pipeline.py` lines 81-87); `Entry` is one stored ChromaDB record
(id, document, embedding, metadata); `FrameRecord` is the input record
shape consumed by `index_video_frames`; `QueryResult` is the formatted
result dict built in `query_video` (lines 147-154). -/

structure Metadata where
  video_id : String
  frame_index : Int
  timestamp_seconds : ℚ
  timestamp_str : String
  caption : String
deriving DecidableEq, Repr

structure Entry where
  id : String
  document : String
  embedding : List ℚ
  metadata : Metadata
deriving DecidableEq, Repr

abbrev Collection := List Entry

structure FrameRecord where
  frame_index : Int
  timestamp_seconds : ℚ
  timestamp_str : String
  caption : String
deriving DecidableEq, Repr

structure QueryResult where
  caption : String
  timestamp_str : String
  timestamp_seconds : ℚ
  frame_index : Int
  distance : ℚ
  similarity_score : ℚ
deriving DecidableEq, Repr

/-- The shape of the dict returned by `collection.query` in ChromaDB:
`metadatas` is a list of per-query lists of metadata dicts; `distances`
is either absent (`none`, Python `None`) or a list of per-query lists of
distances. -/
structure ChromaResults where
  metadatas : List (List Metadata)
  distances : Option (List (List ℚ))
deriving DecidableEq, Repr

/-! ## Indexing (`rag_pipeline.index_video_frames`, lines 37-102) -/

/-- `frame_id = f"{video_id}_{record['frame_index']}"` (line 69). -/
def mkFrameId (video_id : String) (frame_index : Int) : String :=
  video_id ++ "_" ++ toString frame_index

/-- `document = f"Video {video_id}, time {record['timestamp_str']}: {record['caption']}"`
(lines 72-75). -/
def mkDocument (video_id : String) (r : FrameRecord) : String :=
  let ts := r.timestamp_str
  let cap := r.caption
  s!"Video {video_id}, time {ts}: {cap}"

/-- One loop iteration of `index_video_frames` (lines 67-92): the id,
document, embedding and metadata appended for one record. -/
def mkEntry (video_id : String) (r : FrameRecord) (embedding : List ℚ) : Entry :=
  { id := mkFrameId video_id r.frame_index
    document := mkDocument video_id r
    embedding := embedding
    metadata :=
      { video_id := video_id
        frame_index := r.frame_index
        timestamp_seconds := r.timestamp_seconds
        timestamp_str := r.timestamp_str
        caption := r.caption } }

/-- The `for record in frame_records` loop (lines 67-92): computes each
record's embedding in order; a raised exception from `embeddings_fn`
propagates immediately (`Except.error`), before `collection.add` runs. -/
def buildEntries (video_id : String) (embeddings_fn : String → Except String (List ℚ)) :
    List FrameRecord → Except String (List Entry)
  | [] => Except.ok []
  | r :: rs =>
    match embeddings_fn (mkDocument video_id r) with
    | Except.error e => Except.error e
    | Except.ok emb =>
      match buildEntries video_id embeddings_fn rs with
      | Except.error e => Except.error e
      | Except.ok tail => Except.ok (mkEntry video_id r emb :: tail)

/-- Modelled from the spec: the external ChromaDB `collection.add`
(spec §4.2: behaviour on id collision is implementation-defined but the
store must never silently duplicate).  ChromaDB validates the submitted
batch and raises `DuplicateIDError` when the batch itself repeats an id,
storing nothing; an insert whose id already exists in the store is
skipped with a warning, never stored a second time. -/
def collectionAdd (collection : Collection) (newEntries : List Entry) :
    Except String Collection :=
  if (newEntries.map (fun e => e.id)).Nodup then
    Except.ok (collection ++ newEntries.filter
      (fun e => !((collection.map (fun x => x.id)).contains e.id)))
  else Except.error "DuplicateIDError: Expected IDs to be unique"

/-- `index_video_frames` (lines 37-102).  The returned collection is the
state of the store after the call: the single `collection.add` (lines
95-100) happens only after every embedding succeeded — on an embedding
failure the exception propagates and the store is untouched — and the
add itself validates the batch ids (`collectionAdd`), raising before
storing anything when the batch carries a duplicate id. -/
def index_video_frames (collection : Collection) (video_id : String)
    (frame_records : List FrameRecord)
    (embeddings_fn : String → Except String (List ℚ)) :
    Collection × Except String Nat :=
  if frame_records.isEmpty then (collection, Except.ok 0)
  else
    match buildEntries video_id embeddings_fn frame_records with
    | Except.error e => (collection, Except.error e)
    | Except.ok entries =>
      match collectionAdd collection entries with
      | Except.error e => (collection, Except.error e)
      | Except.ok newCollection => (newCollection, Except.ok entries.length)

/-! ## Query formatting (`rag_pipeline.query_video`, lines 105-156) -/

/-- Python truthiness of `results['distances']`: `None` and `[]` are
falsy, a nonempty list is truthy. -/
def distTruthy : Option (List (List ℚ)) → Bool
  | none => false
  | some l => !l.isEmpty

/-- `results['distances'][0][i] if results['distances'] else 0.0`
(line 145); `none` models the `IndexError` Python would raise when the
inner list is shorter than the metadata list. -/
def getDistance (distances : Option (List (List ℚ))) (i : Nat) : Option ℚ :=
  match distances with
  | none => some 0
  | some [] => some 0
  | some (d0 :: _) => d0[i]?

/-- The dict appended for one match (lines 147-154), including
`similarity_score = 1 / (1 + distance)` (line 153). -/
def mkQueryResult (m : Metadata) (d : ℚ) : QueryResult :=
  { caption := m.caption
    timestamp_str := m.timestamp_str
    timestamp_seconds := m.timestamp_seconds
    frame_index := m.frame_index
    distance := d
    similarity_score := 1 / (1 + d) }

/-- The `for i, metadata in enumerate(results['metadatas'][0])` loop
(lines 144-154), carrying the running index `i`. -/
def formatGo (distances : Option (List (List ℚ))) :
    List Metadata → Nat → Option (List QueryResult)
  | [], _ => some []
  | m :: rest, i =>
    match getDistance distances i with
    | none => none
    | some d =>
      match formatGo distances rest (i + 1) with
      | none => none
      | some tail => some (mkQueryResult m d :: tail)

/-- Result formatting of `query_video` (lines 141-156): the guard
`if results['metadatas'] and len(results['metadatas'][0]) > 0` followed
by the formatting loop. -/
def formatResults (results : ChromaResults) : Option (List QueryResult) :=
  match results.metadatas with
  | [] => some []
  | ms :: _ => if ms.length = 0 then some [] else formatGo results.distances ms 0

/-- `query_video` (lines 105-156), with the ChromaDB `collection.query`
call abstracted as `storeQuery query_embedding n_results where_video_id`. -/
def query_video (storeQuery : List ℚ → Nat → String → ChromaResults)
    (video_id question : String) (top_k : Nat)
    (embeddings_fn : String → List ℚ) : Option (List QueryResult) :=
  let query_embedding := embeddings_fn question
  formatResults (storeQuery query_embedding top_k video_id)

/-! ## The vector store (external ChromaDB collection) -/

/-- Squared Euclidean distance, ChromaDB's default (`l2`) metric. -/
def sqDist (u v : List ℚ) : ℚ :=
  ((u.zip v).map (fun p => (p.1 - p.2) ^ 2)).sum

/-- Ordering of scored entries by distance, used to sort the store's
candidate matches ascending. -/
def distRel (a b : Entry × ℚ) : Prop := a.2 ≤ b.2

instance : DecidableRel distRel := fun a b => inferInstanceAs (Decidable (a.2 ≤ b.2))

instance : IsTotal (Entry × ℚ) distRel := ⟨fun a b => le_total a.2 b.2⟩

instance : IsTrans (Entry × ℚ) distRel := ⟨fun _ _ _ h h2 => le_trans h h2⟩

/-- Modelled from the spec: the external ChromaDB collection's filtered
nearest-neighbour search (spec §4.2, not part of `src/app`): entries are
filtered to `metadata.video_id == video_id`, scored against the query
embedding by the collection's distance function, sorted ascending by
distance and truncated to `n_results`. -/
def queryPairs (distFn : List ℚ → List ℚ → ℚ) (entries : Collection)
    (query_embedding : List ℚ) (n_results : Nat) (video_id : String) :
    List (Entry × ℚ) :=
  let filtered := entries.filter (fun e => e.metadata.video_id == video_id)
  let scored := filtered.map (fun e => (e, distFn query_embedding e.embedding))
  (List.insertionSort distRel scored).take n_results

/-- Modelled from the spec: `collection.query(query_embeddings=[qe],
n_results=top_k, where={"video_id": vid})` (spec §4.2); the response
carries one aligned metadata list and distance list. -/
def collectionQuery (distFn : List ℚ → List ℚ → ℚ) (entries : Collection)
    (query_embedding : List ℚ) (n_results : Nat) (video_id : String) :
    ChromaResults :=
  let taken := queryPairs distFn entries query_embedding n_results video_id
  { metadatas := [taken.map (fun p => p.1.metadata)]
    distances := some [taken.map (fun p => p.2)] }

/-- `delete_video_frames` (lines 159-179): `collection.get` collects the
ids of this video's entries, and `collection.delete(ids=...)` removes
exactly the entries whose id is in that list. -/
def delete_video_frames (collection : Collection) (video_id : String) :
    Collection × Nat :=
  let ids := (collection.filter (fun e => e.metadata.video_id == video_id)).map
    (fun e => e.id)
  if ids.isEmpty then (collection, 0)
  else (collection.filter (fun e => !(ids.contains e.id)), ids.length)

/-! ## Embedding client (`llm_client.get_embedding`, lines 25-61) -/

/-- The two exception classes `get_embedding` can raise:
`requests.exceptions.RequestException` (re-raised with a connection
message, lines 57-61) and `ValueError` (line 53). -/
inductive OllamaError where
  | requestError (msg : String)
  | valueError (msg : String)
deriving DecidableEq, Repr

/-- One HTTP response from the embedding endpoint: `http_error = some e`
models a bad status (so `raise_for_status` raises), and `embedding`
models the optional `"embedding"` field of the JSON body. -/
structure EmbeddingResponse where
  http_error : Option String
  embedding : Option (List ℚ)
deriving DecidableEq, Repr

/-- The wrapped connection error raised at lines 57-61. -/
def connectError (e : String) : OllamaError :=
  OllamaError.requestError
    s!"Failed to connect to Ollama server at {OLLAMA_BASE_URL}. Please ensure Ollama is running. Error: {e}"

/-- `get_embedding` (lines 25-61), with the `requests.post` call
abstracted as `post`: a transport failure (`Except.error`) or a bad
status is wrapped into a `RequestException`; a response whose JSON lacks
the `"embedding"` key raises `ValueError("No embedding returned from
Ollama")` (lines 52-53); otherwise the embedding is returned. -/
def get_embedding (post : String → Except String EmbeddingResponse)
    (text : String) : Except OllamaError (List ℚ) :=
  match post text with
  | Except.error e => Except.error (connectError e)
  | Except.ok resp =>
    match resp.http_error with
    | some e => Except.error (connectError e)
    | none =>
      match resp.embedding with
      | none => Except.error (OllamaError.valueError "No embedding returned from Ollama")
      | some v => Except.ok v

/-! ## Question answering slice of `main.py` (lines 296-319) -/

/-- One context block `f"[Frame {i}] time={...}\ncaption: {...}"`
(lines 312-315). -/
def contextPart (p : Nat × QueryResult) : String :=
  let i := p.1
  let ts := p.2.timestamp_str
  let cap := p.2.caption
  s!"[Frame {i}] time={ts}\ncaption: {cap}"

/-- `context = "\n\n".join(context_parts)` with 1-based ranks
(lines 310-316). -/
def formatContext (results : List QueryResult) : String :=
  String.intercalate "\n\n" ((List.enumFrom 1 results).map contextPart)

/-- The ask-button branch of `main` (lines 296-319): retrieve, and bail
out before the language-model call when no results came back (`if not
results: ... return`, lines 305-307).  The returned triple is
(evidence, generated answer if any, number of calls made to
`generate_answer`). -/
def qa_main (storeQuery : List ℚ → Nat → String → ChromaResults)
    (video_id question : String) (top_k : Nat)
    (embeddings_fn : String → List ℚ)
    (generate_answer : String → String → String) :
    List QueryResult × Option String × Nat :=
  match query_video storeQuery video_id question top_k embeddings_fn with
  | none => ([], none, 0)
  | some results =>
    if results.isEmpty then ([], none, 0)
    else (results, some (generate_answer question (formatContext results)), 1)

/-! ## Scene detection (`scene_detection.SceneDetector.extract_keyframes`,
lines 27-106) -/

/-- One element of the sampled-frame buffers built by the capture loop
(lines 47-66): `frames_buffer[j]`, `timestamps[j]`, `frame_indices[j]`. -/
structure Sampled (Frame : Type) where
  frame : Frame
  timestamp_seconds : ℚ
  frame_index : Nat

/-- One keyframe dict of the output (lines 98-104). -/
structure Keyframe (Frame : Type) where
  frame : Frame
  timestamp_seconds : ℚ
  timestamp_str : String
  frame_index : Nat
  type : String

/-- Python `int()` on a rational: truncation toward zero. -/
def intTrunc (q : ℚ) : Int := if q < 0 then -((-q).floor) else q.floor

/-- `f"{n:02d}"`: zero-pad a small nonnegative value to two digits. -/
def pad2 (n : Int) : String :=
  if 0 ≤ n ∧ n < 10 then "0" ++ toString n else toString n

/-- `_format_timestamp` (`scene_detection.py` lines 124-129, identical in
`audio.py` lines 92-97): two `divmod`s by 60 and a `HH:MM:SS` render. -/
def formatTimestamp (seconds : ℚ) : String :=
  let m : Int := (seconds / 60).floor
  let s : ℚ := seconds - 60 * (m : ℚ)
  let h : Int := ((m : ℚ) / 60).floor
  let m2 : Int := m - 60 * h
  pad2 h ++ ":" ++ pad2 m2 ++ ":" ++ pad2 (intTrunc s)

/-- Running argmin of `numpy.argmin`: index of the first minimal value,
scanning with the best value, its index, and the next index. -/
def idxOfMinAux : ℚ → Nat → Nat → List ℚ → Nat
  | _, bestIdx, _, [] => bestIdx
  | best, bestIdx, i, x :: xs =>
    if x < best then idxOfMinAux x i (i + 1) xs
    else idxOfMinAux best bestIdx (i + 1) xs

/-- Index of the first minimal element of a list (0 on the empty list,
which the source never hits). -/
def idxOfMin : List ℚ → Nat
  | [] => 0
  | x :: xs => idxOfMinAux x 0 1 xs

/-- Modelled from the spec: one row of sklearn's
`pairwise_distances_argmin_min(centers, embeddings)` (line 88, external
library): the index of the embedding nearest to a given centre. -/
def argminIdx (embeddings : List (List ℚ)) (center : List ℚ) : Nat :=
  idxOfMin (embeddings.map (fun e => sqDist center e))

/-- The output loop (lines 92-104): one keyframe per selected index,
looking the index up in the sampled buffers; `none` models the
`IndexError` an out-of-range index would raise. -/
def buildKeyframes {Frame : Type} (sampled : List (Sampled Frame)) :
    List Nat → Option (List (Keyframe Frame))
  | [] => some []
  | idx :: rest =>
    match sampled[idx]? with
    | none => none
    | some sf =>
      match buildKeyframes sampled rest with
      | none => none
      | some tail =>
        some
          ({ frame := sf.frame
             timestamp_seconds := sf.timestamp_seconds
             timestamp_str := formatTimestamp sf.timestamp_seconds
             frame_index := sf.frame_index
             type := "visual" } :: tail)

/-- `extract_keyframes` (lines 27-106) from the sampled buffer onward:
the empty-buffer early return (lines 70-71), the cluster-count clamp
(lines 79-81), the clustering step (external sklearn `KMeans`, abstracted
as `kmeansCenters`, which for `n_clusters = k` yields `k` centres), the
per-centre nearest-frame selection (line 88), the `sorted` call
(line 89) and the output loop (lines 92-104). -/
def extract_keyframes {Frame : Type}
    (embedFn : Frame → List ℚ)
    (kmeansCenters : Nat → List (List ℚ) → List (List ℚ))
    (sampled : List (Sampled Frame)) (num_clusters : Nat) :
    Option (List (Keyframe Frame)) :=
  if sampled.isEmpty then some []
  else
    let embeddings := sampled.map (fun sf => embedFn sf.frame)
    let clamped := min num_clusters sampled.length
    let actual_clusters := if clamped < 1 then 1 else clamped
    let centers := kmeansCenters actual_clusters embeddings
    let closest_indices := centers.map (fun ctr => argminIdx embeddings ctr)
    let selected_indices := List.insertionSort (fun a b => a ≤ b) closest_indices
    buildKeyframes sampled selected_indices

/-! ## Supporting lemmas: the query path -/

/-- The formatting loop on a response whose distance row extends a
prefix already consumed: each step reads the distance at the running
index and pairs it with the metadata at the same position. -/
theorem formatGo_append (ms : List Metadata) (ds pre : List ℚ)
    (rest : List (List ℚ)) (h : ms.length = ds.length) :
    formatGo (some ((pre ++ ds) :: rest)) ms pre.length =
      some (List.zipWith mkQueryResult ms ds) := by
  induction ms generalizing ds pre with
  | nil =>
    cases ds with
    | nil => simp [formatGo]
    | cons d ds' => simp at h
  | cons m ms' ih =>
    cases ds with
    | nil => simp at h
    | cons d ds' =>
      have hlen : ms'.length = ds'.length := by simpa using h
      have hget : getDistance (some ((pre ++ d :: ds') :: rest)) pre.length = some d := by
        simp [getDistance, List.getElem?_append_right (le_refl pre.length)]
      have hrec := ih ds' (pre ++ [d]) hlen
      rw [List.append_assoc, List.singleton_append, List.length_append,
        List.length_singleton] at hrec
      simp only [formatGo, hget]
      rw [hrec]
      simp

/-- `formatResults` on an aligned single-query response is the zip of
metadatas with distances. -/
theorem formatResults_aligned (ms : List Metadata) (ds : List ℚ)
    (rest : List (List ℚ)) (h : ms.length = ds.length) :
    formatResults { metadatas := [ms], distances := some (ds :: rest) } =
      some (List.zipWith mkQueryResult ms ds) := by
  have h0 := formatGo_append ms ds [] rest h
  simp only [List.nil_append, List.length_nil] at h0
  cases ms with
  | nil =>
    simp [formatResults]
  | cons m ms' =>
    simp only [formatResults]
    rw [if_neg (by simp)]
    exact h0

/-- Zipping the two projections of one scored list recombines into a map
over that list. -/
theorem zipWith_mk_proj (l : List (Entry × ℚ)) :
    List.zipWith mkQueryResult (l.map (fun p => p.1.metadata)) (l.map (fun p => p.2)) =
      l.map (fun p => mkQueryResult p.1.metadata p.2) := by
  induction l with
  | nil => simp
  | cons p l ih => simp [ih]

/-- `query_video` over the modelled store never raises and yields one
formatted result per retrieved scored entry. -/
theorem query_video_collection (distFn : List ℚ → List ℚ → ℚ)
    (entries : Collection) (video_id question : String) (top_k : Nat)
    (embeddings_fn : String → List ℚ) :
    query_video (collectionQuery distFn entries) video_id question top_k embeddings_fn =
      some ((queryPairs distFn entries (embeddings_fn question) top_k video_id).map
        (fun p => mkQueryResult p.1.metadata p.2)) := by
  unfold query_video collectionQuery
  rw [formatResults_aligned _ _ _ (by simp), zipWith_mk_proj]

/-- Every scored pair retrieved by the modelled store comes from a stored
entry whose metadata matches the filter, scored by the store's distance
function. -/
theorem mem_queryPairs {distFn : List ℚ → List ℚ → ℚ} {entries : Collection}
    {query_embedding : List ℚ} {n_results : Nat} {video_id : String}
    {p : Entry × ℚ}
    (hp : p ∈ queryPairs distFn entries query_embedding n_results video_id) :
    p.1 ∈ entries ∧ p.1.metadata.video_id = video_id ∧
      p.2 = distFn query_embedding p.1.embedding := by
  unfold queryPairs at hp
  have h1 := List.mem_of_mem_take hp
  have h2 := (List.perm_insertionSort distRel _).mem_iff.mp h1
  obtain ⟨e, he, hpe⟩ := List.mem_map.mp h2
  obtain ⟨he1, he2⟩ := List.mem_filter.mp he
  refine ⟨?_, ?_, ?_⟩
  · rw [← hpe] at *; exact he1
  · rw [← hpe]; simpa using he2
  · rw [← hpe]

/-- The retrieved distances are ascending in list order. -/
theorem queryPairs_sorted (distFn : List ℚ → List ℚ → ℚ) (entries : Collection)
    (query_embedding : List ℚ) (n_results : Nat) (video_id : String) :
    List.Sorted (· ≤ ·)
      ((queryPairs distFn entries query_embedding n_results video_id).map
        (fun p => p.2)) := by
  unfold queryPairs
  have hs : List.Sorted distRel (List.insertionSort distRel
      ((entries.filter (fun e => e.metadata.video_id == video_id)).map
        (fun e => (e, distFn query_embedding e.embedding)))) :=
    List.sorted_insertionSort distRel _
  have ht := hs.sublist (List.take_sublist n_results _)
  rw [List.Sorted, List.pairwise_map]
  exact ht.imp (fun h => h)

/-- At most `n_results` scored pairs are retrieved. -/
theorem queryPairs_length_le (distFn : List ℚ → List ℚ → ℚ)
    (entries : Collection) (query_embedding : List ℚ) (n_results : Nat)
    (video_id : String) :
    (queryPairs distFn entries query_embedding n_results video_id).length ≤
      n_results := by
  unfold queryPairs
  simp [List.length_take]

/-- When no stored entry carries the filtered video id, the retrieval is
empty. -/
theorem queryPairs_empty {distFn : List ℚ → List ℚ → ℚ} {entries : Collection}
    {query_embedding : List ℚ} {n_results : Nat} {video_id : String}
    (h : ∀ e ∈ entries, e.metadata.video_id ≠ video_id) :
    queryPairs distFn entries query_embedding n_results video_id = [] := by
  unfold queryPairs
  have hf : entries.filter (fun e => e.metadata.video_id == video_id) = [] := by
    rw [List.filter_eq_nil_iff]
    intro e he
    simpa using h e he
  simp [hf, List.insertionSort]

/-- Squared Euclidean distance is nonnegative. -/
theorem sqDist_nonneg (u v : List ℚ) : 0 ≤ sqDist u v := by
  unfold sqDist
  apply List.sum_nonneg
  intro x hx
  obtain ⟨p, _, rfl⟩ := List.mem_map.mp hx
  positivity

/-- Sample stored entries for two distinct videos, used to instantiate
the theorems at concrete states. -/
def sampleEntryA : Entry := mkEntry "v1" ⟨0, 0, "00:00:00", "a car enters"⟩ [1, 0]

def sampleEntryB : Entry := mkEntry "v2" ⟨0, 0, "00:00:00", "a person walks by"⟩ [0, 1]

/-- C1: for every valid `top_k` in `[MIN_TOP_K, MAX_TOP_K]` and every
collection state, `query_video` returns (without raising) a list of at
most `top_k` results whose distances are non-decreasing in list order,
and the list is empty when no entry matches the video filter. -/
theorem query_video_top_k_ordered (distFn : List ℚ → List ℚ → ℚ)
    (entries : Collection) (video_id question : String) (top_k : Nat)
    (embeddings_fn : String → List ℚ)
    (hmin : MIN_TOP_K ≤ top_k) (hmax : top_k ≤ MAX_TOP_K) :
    ∃ rs, query_video (collectionQuery distFn entries) video_id question top_k
        embeddings_fn = some rs ∧
      rs.length ≤ top_k ∧
      List.Sorted (· ≤ ·) (rs.map QueryResult.distance) ∧
      ((∀ e ∈ entries, e.metadata.video_id ≠ video_id) → rs = []) := by
  refine ⟨_, query_video_collection distFn entries video_id question top_k
    embeddings_fn, ?_, ?_, ?_⟩
  · rw [List.length_map]
    exact queryPairs_length_le distFn entries (embeddings_fn question) top_k video_id
  · rw [List.map_map]
    exact queryPairs_sorted distFn entries (embeddings_fn question) top_k video_id
  · intro h
    rw [queryPairs_empty h]
    rfl

/-- C1 witness: a concrete two-video store queried with `top_k = 3`. -/
theorem query_video_top_k_ordered_witness :
    ∃ rs, query_video (collectionQuery sqDist [sampleEntryA, sampleEntryB])
        "v1" "where is the car" 3 (fun _ => [1, 0]) = some rs ∧
      rs.length ≤ 3 ∧
      List.Sorted (· ≤ ·) (rs.map QueryResult.distance) ∧
      ((∀ e ∈ [sampleEntryA, sampleEntryB], e.metadata.video_id ≠ "v1") →
        rs = []) :=
  query_video_top_k_ordered sqDist [sampleEntryA, sampleEntryB] "v1"
    "where is the car" 3 (fun _ => [1, 0]) (by decide) (by decide)

/-- C2: on a collection holding entries of at least two distinct videos,
every result returned by `query_video` filtered to `video_id` is derived
from a stored entry whose metadata `video_id` equals the filter — never
from an entry of a different video. -/
theorem query_video_filters_video_id (distFn : List ℚ → List ℚ → ℚ)
    (entries : Collection) (video_id question : String) (top_k : Nat)
    (embeddings_fn : String → List ℚ)
    (htwo : ∃ e1 ∈ entries, ∃ e2 ∈ entries,
      e1.metadata.video_id ≠ e2.metadata.video_id) :
    ∃ rs, query_video (collectionQuery distFn entries) video_id question top_k
        embeddings_fn = some rs ∧
      ∀ r ∈ rs, ∃ e ∈ entries, e.metadata.video_id = video_id ∧
        r.caption = e.metadata.caption ∧
        r.frame_index = e.metadata.frame_index ∧
        r.timestamp_str = e.metadata.timestamp_str ∧
        r.timestamp_seconds = e.metadata.timestamp_seconds := by
  refine ⟨_, query_video_collection distFn entries video_id question top_k
    embeddings_fn, ?_⟩
  intro r hr
  obtain ⟨p, hp, rfl⟩ := List.mem_map.mp hr
  obtain ⟨he, hv, _⟩ := mem_queryPairs hp
  exact ⟨p.1, he, hv, rfl, rfl, rfl, rfl⟩

/-- C2 witness: the two-video store, filtered to `"v1"`. -/
theorem query_video_filters_video_id_witness :
    ∃ rs, query_video (collectionQuery sqDist [sampleEntryA, sampleEntryB])
        "v1" "where is the car" 3 (fun _ => [1, 0]) = some rs ∧
      ∀ r ∈ rs, ∃ e ∈ [sampleEntryA, sampleEntryB],
        e.metadata.video_id = "v1" ∧
        r.caption = e.metadata.caption ∧
        r.frame_index = e.metadata.frame_index ∧
        r.timestamp_str = e.metadata.timestamp_str ∧
        r.timestamp_seconds = e.metadata.timestamp_seconds :=
  query_video_filters_video_id sqDist [sampleEntryA, sampleEntryB] "v1"
    "where is the car" 3 (fun _ => [1, 0])
    ⟨sampleEntryA, by simp, sampleEntryB, by simp, by decide⟩

/-- C4: when the store's distance function is nonnegative, every result
of `query_video` satisfies `similarity_score = 1 / (1 + distance)`, and
between any two returned results the strictly larger distance carries
the strictly smaller similarity score. -/
theorem query_video_similarity (distFn : List ℚ → List ℚ → ℚ)
    (entries : Collection) (video_id question : String) (top_k : Nat)
    (embeddings_fn : String → List ℚ)
    (hnn : ∀ u v, 0 ≤ distFn u v) :
    ∃ rs, query_video (collectionQuery distFn entries) video_id question top_k
        embeddings_fn = some rs ∧
      (∀ r ∈ rs, r.similarity_score = 1 / (1 + r.distance)) ∧
      (∀ r1 ∈ rs, ∀ r2 ∈ rs, r1.distance < r2.distance →
        r2.similarity_score < r1.similarity_score) := by
  refine ⟨_, query_video_collection distFn entries video_id question top_k
    embeddings_fn, ?_, ?_⟩
  · intro r hr
    obtain ⟨p, hp, rfl⟩ := List.mem_map.mp hr
    rfl
  · intro r1 h1 r2 h2 hlt
    obtain ⟨p1, hp1, rfl⟩ := List.mem_map.mp h1
    obtain ⟨p2, hp2, rfl⟩ := List.mem_map.mp h2
    obtain ⟨_, _, hd1⟩ := mem_queryPairs hp1
    obtain ⟨_, _, hd2⟩ := mem_queryPairs hp2
    have hnn1 : (0 : ℚ) ≤ p1.2 := hd1 ▸ hnn _ _
    have hnn2 : (0 : ℚ) ≤ p2.2 := hd2 ▸ hnn _ _
    have hlt' : p1.2 < p2.2 := hlt
    show 1 / (1 + p2.2) < 1 / (1 + p1.2)
    apply one_div_lt_one_div_of_lt
    · linarith
    · linarith

/-- C4 witness: the two-video store with the squared Euclidean metric. -/
theorem query_video_similarity_witness :
    ∃ rs, query_video (collectionQuery sqDist [sampleEntryA, sampleEntryB])
        "v1" "where is the car" 3 (fun _ => [1, 0]) = some rs ∧
      (∀ r ∈ rs, r.similarity_score = 1 / (1 + r.distance)) ∧
      (∀ r1 ∈ rs, ∀ r2 ∈ rs, r1.distance < r2.distance →
        r2.similarity_score < r1.similarity_score) :=
  query_video_similarity sqDist [sampleEntryA, sampleEntryB] "v1"
    "where is the car" 3 (fun _ => [1, 0]) sqDist_nonneg

/-- C8: when no stored entry matches the queried `video_id`, the
question-answering path returns an empty evidence list, produces no
answer, and makes zero calls to the language-model completion
function. -/
theorem qa_main_no_llm_call (distFn : List ℚ → List ℚ → ℚ)
    (entries : Collection) (video_id question : String) (top_k : Nat)
    (embeddings_fn : String → List ℚ)
    (generate_answer : String → String → String)
    (h : ∀ e ∈ entries, e.metadata.video_id ≠ video_id) :
    qa_main (collectionQuery distFn entries) video_id question top_k
      embeddings_fn generate_answer = ([], none, 0) := by
  unfold qa_main
  rw [query_video_collection, queryPairs_empty h]
  rfl

/-- C8 witness: querying a video id with no indexed entries makes no
completion call. -/
theorem qa_main_no_llm_call_witness :
    qa_main (collectionQuery sqDist [sampleEntryA, sampleEntryB]) "v3"
      "what happened" 3 (fun _ => [1, 0]) (fun _ _ => "an answer") =
      ([], none, 0) :=
  qa_main_no_llm_call sqDist [sampleEntryA, sampleEntryB] "v3"
    "what happened" 3 (fun _ => [1, 0]) (fun _ _ => "an answer") (by decide)

/-- The formatting loop under a falsy `distances` field assigns distance
0 to every match. -/
theorem formatGo_falsy (distances : Option (List (List ℚ)))
    (hf : distTruthy distances = false) (ms : List Metadata) (i : Nat) :
    formatGo distances ms i = some (ms.map (fun m => mkQueryResult m 0)) := by
  induction ms generalizing i with
  | nil => rfl
  | cons m rest ih =>
    have hd : getDistance distances i = some 0 := by
      cases distances with
      | none => rfl
      | some l =>
        cases l with
        | nil => rfl
        | cons a as => simp [distTruthy] at hf
    simp [formatGo, hd, ih]

/-- C10: when the store's response carries matching metadatas but a
missing (`None`) or empty `distances` field, `query_video` does not
raise: it returns every matched result with `distance = 0` and
`similarity_score = 1`. -/
theorem query_video_missing_distances (ms : List Metadata)
    (rest : List (List Metadata)) (distances : Option (List (List ℚ)))
    (video_id question : String) (top_k : Nat)
    (embeddings_fn : String → List ℚ)
    (hfalsy : distTruthy distances = false) :
    query_video (fun _ _ _ => { metadatas := ms :: rest, distances := distances })
        video_id question top_k embeddings_fn =
      some (ms.map (fun m => mkQueryResult m 0)) ∧
      ∀ r ∈ ms.map (fun m => mkQueryResult m 0),
        r.distance = 0 ∧ r.similarity_score = 1 := by
  constructor
  · unfold query_video formatResults
    by_cases hms : ms.length = 0
    · have hnil : ms = [] := List.length_eq_zero.mp hms
      subst hnil
      rfl
    · simp only [if_neg hms]
      exact formatGo_falsy distances hfalsy ms 0
  · intro r hr
    obtain ⟨m, _, rfl⟩ := List.mem_map.mp hr
    refine ⟨rfl, ?_⟩
    show (1 : ℚ) / (1 + 0) = 1
    norm_num

/-- C10 witness: a concrete response with one matched metadata and a
`None` distances field. -/
theorem query_video_missing_distances_witness :
    query_video (fun _ _ _ =>
        { metadatas := [[sampleEntryA.metadata]], distances := none })
        "v1" "where is the car" 3 (fun _ => [1, 0]) =
      some ([sampleEntryA.metadata].map (fun m => mkQueryResult m 0)) ∧
      ∀ r ∈ [sampleEntryA.metadata].map (fun m => mkQueryResult m 0),
        r.distance = 0 ∧ r.similarity_score = 1 :=
  query_video_missing_distances [sampleEntryA.metadata] [] none "v1"
    "where is the car" 3 (fun _ => [1, 0]) (by decide)

/-! ## Deletion (C5) and the embedding client (C7) -/

/-- Deleting a video with no stored entries is a no-op returning 0. -/
theorem delete_video_frames_none {entries : Collection} {video_id : String}
    (h : ∀ e ∈ entries, e.metadata.video_id ≠ video_id) :
    delete_video_frames entries video_id = (entries, 0) := by
  have hf : entries.filter (fun e => e.metadata.video_id == video_id) = [] := by
    rw [List.filter_eq_nil_iff]
    intro e he
    simpa using h e he
  simp [delete_video_frames, hf]

/-- After `delete_video_frames`, no entry of the deleted video remains. -/
theorem delete_video_frames_clears (entries : Collection) (video_id : String) :
    ∀ e ∈ (delete_video_frames entries video_id).1,
      e.metadata.video_id ≠ video_id := by
  by_cases hids : ((entries.filter
      (fun e => e.metadata.video_id == video_id)).map (fun e => e.id)).isEmpty
  · rw [List.isEmpty_iff, List.map_eq_nil_iff] at hids
    intro e he hvid
    have h1 : (delete_video_frames entries video_id).1 = entries := by
      simp [delete_video_frames, hids]
    rw [h1] at he
    have : e ∈ entries.filter (fun e => e.metadata.video_id == video_id) :=
      List.mem_filter.mpr ⟨he, by simp [hvid]⟩
    rw [hids] at this
    exact absurd this (List.not_mem_nil e)
  · set ids := (entries.filter
      (fun e => e.metadata.video_id == video_id)).map (fun e => e.id) with hids_def
    have h1 : (delete_video_frames entries video_id).1 =
        entries.filter (fun e => !(ids.contains e.id)) := by
      unfold delete_video_frames
      rw [← hids_def, if_neg hids]
    intro e he hvid
    rw [h1] at he
    obtain ⟨hmem, hcond⟩ := List.mem_filter.mp he
    have hin : e.id ∈ ids := by
      rw [hids_def]
      exact List.mem_map.mpr
        ⟨e, List.mem_filter.mpr ⟨hmem, by simp [hvid]⟩, rfl⟩
    simp [hin] at hcond

/-- C5: `delete_video_frames` is idempotent: a video with zero stored
entries deletes to count 0 with the collection untouched; the first call
returns exactly the count of entries stored for that video; and an immediately
repeated call always returns 0. -/
theorem delete_video_frames_idempotent (entries : Collection)
    (video_id : String) :
    ((∀ e ∈ entries, e.metadata.video_id ≠ video_id) →
        delete_video_frames entries video_id = (entries, 0)) ∧
      (delete_video_frames entries video_id).2 =
        (entries.filter (fun e => e.metadata.video_id == video_id)).length ∧
      (delete_video_frames
        (delete_video_frames entries video_id).1 video_id).2 = 0 := by
  refine ⟨fun h => delete_video_frames_none h, ?_, ?_⟩
  · unfold delete_video_frames
    by_cases hids : ((entries.filter
        (fun e => e.metadata.video_id == video_id)).map (fun e => e.id)).isEmpty
    · simp only [hids, if_true]
      rw [List.isEmpty_iff, List.map_eq_nil_iff] at hids
      simp [hids]
    · simp only [hids, if_false]
      simp
  · rw [delete_video_frames_none (delete_video_frames_clears entries video_id)]

/-- C5 witness: the two-video store, deleting a video with no entries
and then checking the repeated-call and count statements at `"v1"`. -/
theorem delete_video_frames_idempotent_witness :
    delete_video_frames [sampleEntryA, sampleEntryB] "v3" =
      ([sampleEntryA, sampleEntryB], 0) :=
  (delete_video_frames_idempotent [sampleEntryA, sampleEntryB] "v3").1
    (by decide)

/-- C7: a response from the embedding endpoint that arrives with a good
status but lacks the `embedding` field makes `get_embedding` raise the
`ValueError("No embedding returned from Ollama")` identifying the
failure; it never returns a vector (in particular not a silent empty
one). -/
theorem get_embedding_missing_field
    (post : String → Except String EmbeddingResponse) (text : String)
    (resp : EmbeddingResponse) (hpost : post text = Except.ok resp)
    (hstatus : resp.http_error = none) (hmiss : resp.embedding = none) :
    get_embedding post text =
        Except.error (OllamaError.valueError "No embedding returned from Ollama") ∧
      ∀ v, get_embedding post text ≠ Except.ok v := by
  have h : get_embedding post text =
      Except.error (OllamaError.valueError "No embedding returned from Ollama") := by
    simp [get_embedding, hpost, hstatus, hmiss]
  exact ⟨h, fun v hv => by rw [h] at hv; exact absurd hv (by simp)⟩

/-- C7 witness: a concrete well-status response with no embedding
field. -/
theorem get_embedding_missing_field_witness :
    get_embedding (fun _ => Except.ok ⟨none, none⟩) "some caption" =
        Except.error (OllamaError.valueError "No embedding returned from Ollama") ∧
      ∀ v, get_embedding (fun _ => Except.ok ⟨none, none⟩) "some caption" ≠
        Except.ok v :=
  get_embedding_missing_field (fun _ => Except.ok ⟨none, none⟩)
    "some caption" ⟨none, none⟩ rfl rfl rfl

/-! ## Indexing claims (C3, C9) -/

/-- Two frame records of one video, the second of which the failing
embedding provider below rejects. -/
def cexRecord0 : FrameRecord := ⟨0, 0, "00:00:00", "a car enters"⟩

def cexRecord1 : FrameRecord := ⟨1, 5, "00:00:05", "a car parked"⟩

/-- An embedding provider that succeeds on the first record's document
and then becomes unreachable. -/
def cexEmbf : String → Except String (List ℚ) := fun s =>
  if s = mkDocument "v1" cexRecord0 then Except.ok [1]
  else Except.error "embedding provider unreachable"

/-- C3 counterexample: the provider embeds the first record successfully
and fails on the second; `index_video_frames` raises the error, but the
store holds no entry for the first record — nothing was upserted before
the failure, so no partial progress exists to be preserved (the call is
all-or-nothing, contrary to the claim). -/
theorem index_no_partial_progress_counterexample :
    cexEmbf (mkDocument "v1" cexRecord0) = Except.ok [1] ∧
      index_video_frames [] "v1" [cexRecord0, cexRecord1] cexEmbf =
        ([], Except.error "embedding provider unreachable") ∧
      ¬ ∃ e ∈ (index_video_frames [] "v1" [cexRecord0, cexRecord1] cexEmbf).1,
          e.id = mkFrameId "v1" cexRecord0.frame_index :=
  ⟨rfl, rfl, by decide⟩

/-- When some record's document is rejected by the embedding provider,
the per-record embedding loop propagates an error. -/
theorem buildEntries_error (video_id : String)
    (embeddings_fn : String → Except String (List ℚ))
    (records : List FrameRecord)
    (h : ∃ r ∈ records, ∃ msg,
      embeddings_fn (mkDocument video_id r) = Except.error msg) :
    ∃ msg, buildEntries video_id embeddings_fn records = Except.error msg := by
  induction records with
  | nil =>
    obtain ⟨r, hr, _⟩ := h
    exact absurd hr (List.not_mem_nil r)
  | cons r rs ih =>
    obtain ⟨r', hr', msg, hmsg⟩ := h
    rcases List.mem_cons.mp hr' with rfl | hmem
    · exact ⟨msg, by simp [buildEntries, hmsg]⟩
    · cases hemb : embeddings_fn (mkDocument video_id r) with
      | error e => exact ⟨e, by simp [buildEntries, hemb]⟩
      | ok emb =>
        obtain ⟨m2, hm2⟩ := ih ⟨r', hmem, msg, hmsg⟩
        exact ⟨m2, by simp [buildEntries, hemb, hm2]⟩

/-- C3 amended: if the embedding provider fails on any record of the
batch, `index_video_frames` raises the error to the caller and the
collection is left exactly as before the call — every embedding is
computed before the single batch add, so the failing call stores no
entries at all (entries from earlier successful calls are of course
still present, being part of the untouched prior state). -/
theorem index_video_frames_atomic_on_failure (collection : Collection)
    (video_id : String) (records : List FrameRecord)
    (embeddings_fn : String → Except String (List ℚ))
    (h : ∃ r ∈ records, ∃ msg,
      embeddings_fn (mkDocument video_id r) = Except.error msg) :
    ∃ msg, index_video_frames collection video_id records embeddings_fn =
      (collection, Except.error msg) := by
  obtain ⟨msg, hb⟩ := buildEntries_error video_id embeddings_fn records h
  have hne : records.isEmpty = false := by
    obtain ⟨r, hr, _⟩ := h
    cases records with
    | nil => exact absurd hr (List.not_mem_nil r)
    | cons a as => rfl
  exact ⟨msg, by simp [index_video_frames, hne, hb]⟩

/-- C3 amended witness: the two-record batch with the provider failing
on the second record leaves the (empty) store unchanged. -/
theorem index_video_frames_atomic_on_failure_witness :
    ∃ msg, index_video_frames [] "v1" [cexRecord0, cexRecord1] cexEmbf =
      ([], Except.error msg) :=
  index_video_frames_atomic_on_failure [] "v1" [cexRecord0, cexRecord1]
    cexEmbf ⟨cexRecord1, by decide, "embedding provider unreachable", rfl⟩

/-- Two audio transcript segments: `audio.py` line 76 assigns
`frame_index = -1` to every audio segment. -/
def audioRecord0 : FrameRecord := ⟨-1, 0, "00:00:00", "[AUDIO TRANSCRIPT] hello"⟩

def audioRecord1 : FrameRecord := ⟨-1, 3, "00:00:03", "[AUDIO TRANSCRIPT] world"⟩

/-- An embedding provider that always succeeds. -/
def okEmbf : String → Except String (List ℚ) := fun _ => Except.ok [1]

/-- C9 counterexample: indexing a batch of two audio segments (both
carrying `frame_index = -1`) hands the store the duplicate ids
`["v1_-1", "v1_-1"]`; the store rejects the batch with
`DuplicateIDError` and stores nothing — the operation errors with zero
entries stored, not one entry per FrameRecord. -/
theorem index_duplicate_id_counterexample :
    index_video_frames [] "v1" [audioRecord0, audioRecord1] okEmbf =
        ([], Except.error "DuplicateIDError: Expected IDs to be unique") ∧
      ¬ ∃ e ∈ (index_video_frames [] "v1" [audioRecord0, audioRecord1] okEmbf).1,
          e.id = mkFrameId "v1" audioRecord0.frame_index :=
  ⟨rfl, by decide⟩

/-- A successful embedding loop yields exactly one entry per record, in
order, each with id `video_id ++ "_" ++ frame_index`. -/
theorem buildEntries_ok_ids (video_id : String)
    (embeddings_fn : String → Except String (List ℚ)) :
    ∀ (records : List FrameRecord) (newEntries : List Entry),
      buildEntries video_id embeddings_fn records = Except.ok newEntries →
      newEntries.map (fun e => e.id) =
        records.map (fun r => mkFrameId video_id r.frame_index) := by
  intro records
  induction records with
  | nil =>
    intro newEntries h
    simp only [buildEntries, Except.ok.injEq] at h
    subst h
    rfl
  | cons r rs ih =>
    intro newEntries h
    simp only [buildEntries] at h
    cases hemb : embeddings_fn (mkDocument video_id r) with
    | error e => rw [hemb] at h; exact absurd h (by simp)
    | ok emb =>
      rw [hemb] at h
      cases hrec : buildEntries video_id embeddings_fn rs with
      | error e => rw [hrec] at h; exact absurd h (by simp)
      | ok tail =>
        rw [hrec] at h
        simp only [Except.ok.injEq] at h
        subst h
        simp only [List.map_cons]
        rw [ih tail hrec]
        rfl

/-- Any indexing call preserves uniqueness of the stored ids: every
failure (embedding error or rejected batch) leaves the store untouched,
and a validated batch is appended with already-present ids skipped. -/
theorem index_preserves_nodup (collection : Collection) (video_id : String)
    (records : List FrameRecord)
    (embeddings_fn : String → Except String (List ℚ))
    (hnod : (collection.map (fun e => e.id)).Nodup) :
    (((index_video_frames collection video_id records embeddings_fn).1).map
      (fun e => e.id)).Nodup := by
  unfold index_video_frames
  by_cases hemp : records.isEmpty
  · rw [if_pos hemp]
    exact hnod
  · rw [if_neg hemp]
    cases hbe : buildEntries video_id embeddings_fn records with
    | error e => exact hnod
    | ok es =>
      by_cases hdup : (es.map (fun e => e.id)).Nodup
      · have hadd : collectionAdd collection es = Except.ok (collection ++
            es.filter (fun e => !((collection.map (fun x => x.id)).contains e.id))) := by
          simp [collectionAdd, hdup]
        dsimp only
        rw [hadd]
        show ((collection ++
          es.filter (fun e => !((collection.map (fun x => x.id)).contains e.id))).map
            (fun e => e.id)).Nodup
        rw [List.map_append, List.nodup_append]
        refine ⟨hnod, ?_, ?_⟩
        · exact hdup.sublist ((List.filter_sublist es).map (fun e => e.id))
        · intro a ha hb
          obtain ⟨e, he, rfl⟩ := List.mem_map.mp hb
          obtain ⟨_, hcond⟩ := List.mem_filter.mp he
          simp only [Bool.not_eq_eq_eq_not, Bool.not_true] at hcond
          have hnm : e.id ∉ collection.map (fun x => x.id) := by
            simpa using hcond
          exact hnm ha
      · have hadd : collectionAdd collection es =
            Except.error "DuplicateIDError: Expected IDs to be unique" := by
          simp [collectionAdd, hdup]
        dsimp only
        rw [hadd]
        exact hnod

/-- C9 amended: every created entry id is the concatenation
`video_id ++ "_" ++ frame_index`, one candidate entry per FrameRecord;
every indexing call preserves uniqueness of the stored ids — in
particular a batch whose records share a `frame_index` (audio segments
all carry -1) is rejected by the store validation before anything is
stored; and a batch with pairwise distinct `frame_index` renderings,
colliding with nothing already stored, is appended whole: exactly one
stored entry per FrameRecord. -/
theorem index_video_frames_ids (collection : Collection) (video_id : String)
    (records : List FrameRecord)
    (embeddings_fn : String → Except String (List ℚ))
    (newEntries : List Entry)
    (h : buildEntries video_id embeddings_fn records = Except.ok newEntries) :
    newEntries.map (fun e => e.id) =
        records.map (fun r => mkFrameId video_id r.frame_index) ∧
      (∀ (video_id2 : String) (records2 : List FrameRecord)
          (embeddings_fn2 : String → Except String (List ℚ)),
        (collection.map (fun e => e.id)).Nodup →
        (((index_video_frames collection video_id2 records2 embeddings_fn2).1).map
          (fun e => e.id)).Nodup) ∧
      ((records.map (fun r => toString r.frame_index)).Nodup →
        (∀ e ∈ collection, ∀ r ∈ records,
          e.id ≠ mkFrameId video_id r.frame_index) →
        index_video_frames collection video_id records embeddings_fn =
          (collection ++ newEntries, Except.ok newEntries.length)) := by
  have hids := buildEntries_ok_ids video_id embeddings_fn records newEntries h
  refine ⟨hids,
    fun v2 r2 e2 hnod => index_preserves_nodup collection v2 r2 e2 hnod, ?_⟩
  intro hnodr hnocol
  have hnodids : (newEntries.map (fun e => e.id)).Nodup := by
    rw [hids]
    have hcomp : records.map (fun r => mkFrameId video_id r.frame_index) =
        (records.map (fun r => toString r.frame_index)).map
          (fun s => video_id ++ "_" ++ s) := by
      rw [List.map_map]
      rfl
    rw [hcomp]
    refine List.Nodup.map ?_ hnodr
    intro a b hab
    have hd := congrArg String.data hab
    simp [String.data_append] at hd
    exact String.ext hd
  have hfilter : newEntries.filter
      (fun e => !((collection.map (fun x => x.id)).contains e.id)) = newEntries := by
    rw [List.filter_eq_self]
    intro e he
    have hin : e.id ∈ records.map (fun r => mkFrameId video_id r.frame_index) := by
      rw [← hids]
      exact List.mem_map_of_mem _ he
    obtain ⟨r, hr, hrid⟩ := List.mem_map.mp hin
    have hnotin : e.id ∉ collection.map (fun x => x.id) := by
      intro hcon
      obtain ⟨ec, hec, hecid⟩ := List.mem_map.mp hcon
      exact hnocol ec hec r hr (hecid.trans hrid.symm)
    simpa using hnotin
  have hadd : collectionAdd collection newEntries =
      Except.ok (collection ++ newEntries) := by
    simp only [collectionAdd, if_pos hnodids, hfilter]
  cases records with
  | nil =>
    simp only [buildEntries, Except.ok.injEq] at h
    subst h
    simp [index_video_frames]
  | cons r rs =>
    simp [index_video_frames, h, hadd]

/-- C9 amended witness: a two-record batch with distinct frame indices
against an empty store is appended whole, one entry per record. -/
theorem index_video_frames_ids_witness :
    index_video_frames [] "v1" [cexRecord0, cexRecord1] okEmbf =
      ([] ++ [mkEntry "v1" cexRecord0 [1], mkEntry "v1" cexRecord1 [1]],
        Except.ok
          [mkEntry "v1" cexRecord0 [1], mkEntry "v1" cexRecord1 [1]].length) :=
  (index_video_frames_ids [] "v1" [cexRecord0, cexRecord1] okEmbf
      [mkEntry "v1" cexRecord0 [1], mkEntry "v1" cexRecord1 [1]] rfl).2.2
    (by decide) (by decide)

/-! ## Keyframe selection (C6) -/

/-- The argmin scan stays below any bound dominating both the current
best index and the indices still to be scanned. -/
theorem idxOfMinAux_lt (n : Nat) :
    ∀ (xs : List ℚ) (best : ℚ) (bi i : Nat), bi < n → i + xs.length ≤ n →
      idxOfMinAux best bi i xs < n := by
  intro xs
  induction xs with
  | nil =>
    intro best bi i hbi _
    simpa [idxOfMinAux] using hbi
  | cons x xs ih =>
    intro best bi i hbi hlen
    simp only [List.length_cons] at hlen
    have hi : i < n := by omega
    have hlen' : (i + 1) + xs.length ≤ n := by omega
    by_cases hx : x < best
    · simpa [idxOfMinAux, hx] using ih x i (i + 1) hi hlen'
    · simpa [idxOfMinAux, hx] using ih best bi (i + 1) hbi hlen'

/-- On a nonempty list the argmin index is in range. -/
theorem idxOfMin_lt (l : List ℚ) (h : l ≠ []) : idxOfMin l < l.length := by
  cases l with
  | nil => exact absurd rfl h
  | cons x xs =>
    simp only [idxOfMin, List.length_cons]
    exact idxOfMinAux_lt (xs.length + 1) xs x 0 1 (by omega) (by omega)

/-- The output loop succeeds on in-range indices and yields one keyframe
per selected index. -/
theorem buildKeyframes_some {Frame : Type} (sampled : List (Sampled Frame)) :
    ∀ (sel : List Nat), (∀ i ∈ sel, i < sampled.length) →
      ∃ ks, buildKeyframes sampled sel = some ks ∧ ks.length = sel.length := by
  intro sel
  induction sel with
  | nil => exact fun _ => ⟨[], rfl, rfl⟩
  | cons idx rest ih =>
    intro h
    have hidx : idx < sampled.length := h idx (List.mem_cons_self idx rest)
    have hsf : sampled[idx]? = some sampled[idx] := List.getElem?_eq_getElem hidx
    obtain ⟨ks, hks, hlen⟩ := ih (fun i hi => h i (List.mem_cons_of_mem _ hi))
    exact ⟨⟨sampled[idx].frame, sampled[idx].timestamp_seconds,
        formatTimestamp sampled[idx].timestamp_seconds,
        sampled[idx].frame_index, "visual"⟩ :: ks,
      by simp [buildKeyframes, hsf, hks], by simp [hlen]⟩

/-- `extract_keyframes`, unfolded on a nonempty sampled buffer. -/
theorem extract_keyframes_cons_eq {Frame : Type} (embedFn : Frame → List ℚ)
    (kmeansCenters : Nat → List (List ℚ) → List (List ℚ))
    (s0 : Sampled Frame) (rest : List (Sampled Frame)) (num_clusters : Nat) :
    extract_keyframes embedFn kmeansCenters (s0 :: rest) num_clusters =
      buildKeyframes (s0 :: rest)
        (List.insertionSort (fun a b => a ≤ b)
          ((kmeansCenters
              (if min num_clusters (s0 :: rest).length < 1 then 1
               else min num_clusters (s0 :: rest).length)
              ((s0 :: rest).map (fun sf => embedFn sf.frame))).map
            (fun ctr =>
              argminIdx ((s0 :: rest).map (fun sf => embedFn sf.frame)) ctr))) :=
  rfl

/-- C6: assuming the clustering routine yields exactly the requested
number of centres, `extract_keyframes` never raises; an empty sampled
buffer yields an empty keyframe list, and a nonempty buffer of `n`
frames yields exactly `min(requested_k, n)` keyframes floored at 1 — in
particular exactly one keyframe for `requested_k = 1`, and `n` keyframes
when `n < requested_k`. -/
theorem extract_keyframes_count {Frame : Type} (embedFn : Frame → List ℚ)
    (kmeansCenters : Nat → List (List ℚ) → List (List ℚ))
    (sampled : List (Sampled Frame)) (num_clusters : Nat)
    (hk : ∀ k pts, (kmeansCenters k pts).length = k) :
    ∃ ks, extract_keyframes embedFn kmeansCenters sampled num_clusters = some ks ∧
      (sampled = [] → ks = []) ∧
      (sampled ≠ [] → ks.length = max 1 (min num_clusters sampled.length)) ∧
      (sampled ≠ [] → num_clusters = 1 → ks.length = 1) ∧
      (sampled ≠ [] → sampled.length < num_clusters →
        ks.length = sampled.length) := by
  cases sampled with
  | nil =>
    refine ⟨[], rfl, fun _ => rfl, ?_, ?_, ?_⟩ <;>
      exact fun h => absurd rfl h
  | cons s0 rest =>
    have hnnil : (s0 :: rest) ≠ ([] : List (Sampled Frame)) := by simp
    have hemblen : ((s0 :: rest).map (fun sf => embedFn sf.frame)).length =
        (s0 :: rest).length := List.length_map _ _
    have hsel : ∀ i ∈ List.insertionSort (fun a b => a ≤ b)
        ((kmeansCenters
            (if min num_clusters (s0 :: rest).length < 1 then 1
             else min num_clusters (s0 :: rest).length)
            ((s0 :: rest).map (fun sf => embedFn sf.frame))).map
          (fun ctr =>
            argminIdx ((s0 :: rest).map (fun sf => embedFn sf.frame)) ctr)),
        i < (s0 :: rest).length := by
      intro i hi
      have hi' := (List.perm_insertionSort (fun a b => a ≤ b) _).mem_iff.mp hi
      obtain ⟨ctr, _, rfl⟩ := List.mem_map.mp hi'
      unfold argminIdx
      have hlt := idxOfMin_lt
        (((s0 :: rest).map (fun sf => embedFn sf.frame)).map
          (fun e => sqDist ctr e)) (by simp)
      simpa using hlt
    obtain ⟨ks, hks, hlen⟩ := buildKeyframes_some (s0 :: rest) _ hsel
    have hsellen : (List.insertionSort (fun a b => a ≤ b)
        ((kmeansCenters
            (if min num_clusters (s0 :: rest).length < 1 then 1
             else min num_clusters (s0 :: rest).length)
            ((s0 :: rest).map (fun sf => embedFn sf.frame))).map
          (fun ctr =>
            argminIdx ((s0 :: rest).map (fun sf => embedFn sf.frame)) ctr))).length =
        (if min num_clusters (s0 :: rest).length < 1 then 1
         else min num_clusters (s0 :: rest).length) := by
      rw [(List.perm_insertionSort (fun a b => a ≤ b) _).length_eq,
        List.length_map, hk]
    have hkslen : ks.length =
        (if min num_clusters (s0 :: rest).length < 1 then 1
         else min num_clusters (s0 :: rest).length) := by
      rw [hlen, hsellen]
    have hn : 0 < (s0 :: rest).length := by simp
    refine ⟨ks, ?_, fun h => absurd h hnnil, fun _ => ?_, fun _ h1 => ?_,
      fun _ hlt => ?_⟩
    · rw [extract_keyframes_cons_eq]
      exact hks
    · rw [hkslen]
      split_ifs with hc <;> omega
    · rw [hkslen]
      subst h1
      split_ifs with hc <;> omega
    · rw [hkslen]
      split_ifs with hc <;> omega

/-- C6 witness: a one-frame buffer with `requested_k = 1` yields exactly
one keyframe. -/
theorem extract_keyframes_count_witness :
    ∃ ks, extract_keyframes (fun _ : Unit => [0])
        (fun k _ => List.replicate k [0]) [⟨(), 0, 0⟩] 1 = some ks ∧
      (([⟨(), 0, 0⟩] : List (Sampled Unit)) = [] → ks = []) ∧
      (([⟨(), 0, 0⟩] : List (Sampled Unit)) ≠ [] →
        ks.length = max 1 (min 1 ([⟨(), 0, 0⟩] : List (Sampled Unit)).length)) ∧
      (([⟨(), 0, 0⟩] : List (Sampled Unit)) ≠ [] → 1 = 1 → ks.length = 1) ∧
      (([⟨(), 0, 0⟩] : List (Sampled Unit)) ≠ [] →
        ([⟨(), 0, 0⟩] : List (Sampled Unit)).length < 1 →
        ks.length = ([⟨(), 0, 0⟩] : List (Sampled Unit)).length) :=
  extract_keyframes_count (fun _ : Unit => [0]) (fun k _ => List.replicate k [0])
    [⟨(), 0, 0⟩] 1 (fun k pts => by simp)
